import Mathlib

/-!
Shallow embedding of the typst-preprocess job/preprocessor execution engine:
the query model and builder (`src/query.rs`), the query command construction,
the job scheduler of `main` (`src/main.rs`), and the web-resource preprocessor
(`src/preprocessor/web_resource.rs` with its manifest configuration in
`src/preprocessors/web_resource/manifest.rs`).

External collaborators (path resolution against the project root, the
filesystem, the network, the `typst query` subprocess) are modelled as
explicit function-valued environments; effects are recorded as traces.
-/

namespace TypstPreprocess

/-! ## Query model (`src/query.rs`, `src/config.rs`) -/

/-- Entries of the query inputs map (`HashMap<String, String>` in the source),
modelled as the list of its key-value pairs in iteration order. -/
abbrev Inputs := List (String × String)

/-- Query configuration from the manifest (`Query` in `config.rs`): all fields
optional; `field` is a tri-state (absent, explicitly disabled, or a name),
hence `Option (Option String)`. -/
structure ConfigQuery where
  selector : Option String
  field : Option (Option String)
  one : Option Bool
  inputs : Inputs
deriving Repr, DecidableEq

/-- A resolved query (`Query` in `query.rs`). -/
structure Query where
  selector : String
  field : Option String
  one : Bool
  inputs : Inputs
deriving Repr, DecidableEq

/-- Builder error (`QueryBuilderError` in `query.rs`): names the required
configuration that is missing. -/
inductive QueryBuilderError where
  | Selector
  | Field
  | One
deriving Repr, DecidableEq

/-- Query builder (`QueryBuilder` in `query.rs`): optional per-kind defaults. -/
structure QueryBuilder where
  selector : Option String := none
  field : Option (Option String) := none
  one : Option Bool := none
deriving Repr, DecidableEq

/-- Query::builder from `query.rs` (`QueryBuilder::default()`). -/
def Query.builder : QueryBuilder := {}

/-- QueryBuilder::default_selector from `query.rs`. -/
def QueryBuilder.default_selector (self : QueryBuilder) (selector : String) : QueryBuilder :=
  { self with selector := some selector }

/-- QueryBuilder::default_field from `query.rs`. -/
def QueryBuilder.default_field (self : QueryBuilder) (field : Option String) : QueryBuilder :=
  { self with field := some field }

/-- QueryBuilder::default_one from `query.rs`. -/
def QueryBuilder.default_one (self : QueryBuilder) (one : Bool) : QueryBuilder :=
  { self with one := some one }

/-- QueryBuilder::build from `query.rs`: merge the user config over the builder
defaults (`Option::or`: the user value wins when present), failing with the
error of the first required field that resolves to nothing; `inputs` are taken
from the config unchanged. -/
def QueryBuilder.build (self : QueryBuilder) (config : ConfigQuery) :
    Except QueryBuilderError Query :=
  match config.selector.or self.selector with
  | none => .error .Selector
  | some selector =>
    match config.field.or self.field with
    | none => .error .Field
    | some field =>
      match config.one.or self.one with
      | none => .error .One
      | some one => .ok { selector, field, one, inputs := config.inputs }

/-! ## Query command construction (`Query::command` in `src/query.rs`) -/

/-- The command line arguments external to the query (`ARGS` in `args.rs`):
the typst executable, the optional `--root`, and the input file. -/
structure Args where
  typst : String
  root : Option String
  input : String
deriving Repr, DecidableEq

/-- The `--root` arguments of the command line (`if let Some(root) = &ARGS.root`). -/
def rootArgs : Option String → List String
  | some root => ["--root", root]
  | none => []

/-- The `--field` arguments of the command line (`if let Some(field) = &self.field`). -/
def fieldArgs : Option String → List String
  | some field => ["--field", field]
  | none => []

/-- The `--one` argument of the command line (`if self.one`). -/
def oneArgs (one : Bool) : List String :=
  if one then ["--one"] else []

/-- The `--input key=value` argument pairs for the user-supplied inputs, in
map iteration order (`for (key, value) in &self.inputs`). -/
def renderInputs (inputs : Inputs) : List String :=
  (inputs.map (fun kv => ["--input", kv.1 ++ "=" ++ kv.2])).flatten

/-- Query::command from `query.rs`: the program and its argument list.
After the user inputs, `--input prequery-fallback=true` is always appended,
then the input file and the selector. -/
def Query.command (args : Args) (q : Query) : String × List String :=
  (args.typst,
    ["query"] ++ rootArgs args.root ++ fieldArgs q.field ++ oneArgs q.one
      ++ renderInputs q.inputs ++ ["--input", "prequery-fallback=true"]
      ++ [args.input, q.selector])

/-- Number of occurrences of the adjacent argument pair
`--input prequery-fallback=true` in an argument list. -/
def countInputPairs : List String → Nat
  | a :: b :: rest =>
    (if a = "--input" ∧ b = "prequery-fallback=true" then 1 else 0)
      + countInputPairs (b :: rest)
  | _ => 0

/-- Number of user input entries with key `prequery-fallback` and value `true`. -/
def countPf : Inputs → Nat
  | [] => 0
  | kv :: rest => (if kv.1 = "prequery-fallback" ∧ kv.2 = "true" then 1 else 0) + countPf rest

/-! ## Job scheduler (`main` in `src/main.rs`) -/

/-- Observable events of one process run: the `println!`/`eprintln!` lines of
`main.rs`, with preprocessor side effects as opaque labels. -/
inductive Event where
  | configError (name msg : String)
  | jobStarted (name : String)
  | jobEffect (label : String)
  | jobFinished (name : String)
  | jobFailed (name msg : String)
deriving Repr, DecidableEq

/-- A constructed job together with the outcome of its `run()`: its name, the
observable side effects of running it, and its result. -/
structure JobRun where
  name : String
  effects : List String
  result : Except String Unit
deriving Repr

/-- The event trace of one spawned job task in the scheduler loop of `main.rs`:
the start notification, the job's own effects, and a finished or failed line
tagged with the job's name. -/
def runJob (j : JobRun) : List Event :=
  Event.jobStarted j.name ::
    (j.effects.map Event.jobEffect ++
      match j.result with
      | .ok _ => [Event.jobFinished j.name]
      | .error e => [Event.jobFailed j.name e])

/-- The scheduler phase of `main` (`main.rs`): every job is spawned and joined
to completion; the overall flag is the running conjunction
`success &= result.is_ok()` over all joined results. -/
def runJobs (jobs : List JobRun) : List Event × Bool :=
  ((jobs.map runJob).flatten,
    jobs.foldl (fun success j => success && j.result.isOk) true)

/-- The error half of a construction result (`result.as_ref().err()`). -/
def exceptErr {ε α : Type} : Except ε α → Option ε
  | .error e => some e
  | .ok _ => none

/-- The success half of a construction result. -/
def exceptOk {ε α : Type} : Except ε α → Option α
  | .ok a => some a
  | .error _ => none

/-- The whole of `main` (`main.rs`), over the list of per-job construction
results (each error carries the job's name and message): if any construction
failed, every failure is printed and the process aborts before running
anything; otherwise the scheduler phase runs all jobs and the process fails
iff any job failed. -/
def typstMain (results : List (Except (String × String) JobRun)) :
    List Event × Except String Unit :=
  let errors := results.filterMap exceptErr
  if errors.isEmpty then
    let jobs := results.filterMap exceptOk
    ((runJobs jobs).1,
      if (runJobs jobs).2 then .ok () else .error "at least one job failed")
  else
    (errors.map (fun e => Event.configError e.1 e.2),
      .error "at least one preprocessor has configuration errors")

/-! ## Scheduler lemmas and claims C1, C5 -/

lemma foldl_and_isOk (jobs : List JobRun) (b : Bool) :
    jobs.foldl (fun success j => success && j.result.isOk) b
      = (b && jobs.all fun j => j.result.isOk) := by
  induction jobs generalizing b with
  | nil => simp
  | cons a l ih => simp [ih, Bool.and_assoc]

lemma runJobs_events_decomp (jobs : List JobRun) (j : JobRun) (hj : j ∈ jobs) :
    ∃ l1 l2, (runJobs jobs).1 = l1 ++ runJob j ++ l2 := by
  obtain ⟨s, t, rfl⟩ := List.append_of_mem hj
  exact ⟨(s.map runJob).flatten, (t.map runJob).flatten, by simp [runJobs]⟩

/-- C1: the scheduler's overall result is success if and only if every job's
run result is success; every spawned job's whole trace (start notification,
its effects, its finished/failed line) appears in the scheduler's trace, so a
failing job does not prevent any other job from running to completion, and
every spawned task is joined before the overall flag is produced. -/
theorem c1_scheduler_aggregate (jobs : List JobRun) :
    ((runJobs jobs).2 = true ↔ ∀ j ∈ jobs, j.result.isOk = true)
      ∧ ∀ j ∈ jobs, ∃ l1 l2, (runJobs jobs).1 = l1 ++ runJob j ++ l2 := by
  constructor
  · simp [runJobs, foldl_and_isOk, List.all_eq_true]
  · intro j hj
    exact runJobs_events_decomp jobs j hj

/-- C5: construction of every declared job is attempted (the construction
results of all declarations enter `typstMain`); if any construction fails,
every construction error is reported tagged with its job's name, the process
result is a failure, and no job is ever started; a successfully constructed
job runs exactly when every construction succeeded. -/
theorem c5_construction_gate {α : Type} (decls : List α)
    (construct : α → Except (String × String) JobRun) :
    ((∃ d ∈ decls, (construct d).isOk = false) →
        (typstMain (decls.map construct)).2
            = .error "at least one preprocessor has configuration errors"
          ∧ (typstMain (decls.map construct)).1
            = ((decls.map construct).filterMap exceptErr).map
                (fun e => Event.configError e.1 e.2)
          ∧ ∀ ev ∈ (typstMain (decls.map construct)).1, ∀ n, ev ≠ Event.jobStarted n)
      ∧ ((∀ d ∈ decls, (construct d).isOk = true) →
          ∀ d ∈ decls, ∀ j, construct d = .ok j →
            ∃ l1 l2, (typstMain (decls.map construct)).1 = l1 ++ runJob j ++ l2) := by
  constructor
  · rintro ⟨d, hd, hok⟩
    rcases hc : construct d with e | j
    case ok =>
      rw [hc] at hok
      simp [Except.isOk, Except.toBool] at hok
    have hmem : e ∈ (decls.map construct).filterMap exceptErr :=
      List.mem_filterMap.mpr ⟨construct d, List.mem_map_of_mem construct hd,
        by rw [hc]; rfl⟩
    have hne : ((decls.map construct).filterMap exceptErr).isEmpty = false := by
      rcases hE : (decls.map construct).filterMap exceptErr with _ | ⟨a, t⟩
      · rw [hE] at hmem; cases hmem
      · rfl
    refine ⟨?_, ?_, ?_⟩
    · simp only [typstMain]; rw [hne]; simp
    · simp only [typstMain]; rw [hne]; simp
    · intro ev hev n
      simp only [typstMain] at hev
      rw [hne] at hev
      simp at hev
      obtain ⟨e1, e2, -, rfl⟩ := hev
      simp
  · intro hall d hd j hj
    have hnil : (decls.map construct).filterMap exceptErr = [] := by
      rw [List.filterMap_eq_nil_iff]
      intro a ha
      obtain ⟨d', hd', rfl⟩ := List.mem_map.mp ha
      have hthis := hall d' hd'
      rcases hc : construct d' with e | j'
      · rw [hc] at hthis; simp [Except.isOk, Except.toBool] at hthis
      · rfl
    have hcond : ((decls.map construct).filterMap exceptErr).isEmpty = true := by
      rw [hnil]; rfl
    have hjmem : j ∈ (decls.map construct).filterMap exceptOk :=
      List.mem_filterMap.mpr ⟨construct d, List.mem_map_of_mem construct hd,
        by rw [hj]; rfl⟩
    have hdec := runJobs_events_decomp ((decls.map construct).filterMap exceptOk) j hjmem
    simp only [typstMain]
    rw [hcond]
    simpa using hdec

/-! ## Claim C4: builder precedence and missing-field errors -/

/-- C4: `build` resolves each of selector, field and one to the user value
when present, otherwise to the builder default when present, and otherwise
fails with the error naming that missing field; on success, the query's
inputs are the user config's inputs unchanged. -/
theorem c4_build_resolution (b : QueryBuilder) (c : ConfigQuery) :
    (∀ s, c.selector = some s → ∀ q, b.build c = .ok q → q.selector = s)
      ∧ (∀ s, c.selector = none → b.selector = some s →
          ∀ q, b.build c = .ok q → q.selector = s)
      ∧ (∀ f, c.field = some f → ∀ q, b.build c = .ok q → q.field = f)
      ∧ (∀ f, c.field = none → b.field = some f →
          ∀ q, b.build c = .ok q → q.field = f)
      ∧ (∀ o, c.one = some o → ∀ q, b.build c = .ok q → q.one = o)
      ∧ (∀ o, c.one = none → b.one = some o →
          ∀ q, b.build c = .ok q → q.one = o)
      ∧ (c.selector = none → b.selector = none → b.build c = .error .Selector)
      ∧ ((c.selector.or b.selector).isSome → c.field = none → b.field = none →
          b.build c = .error .Field)
      ∧ ((c.selector.or b.selector).isSome → (c.field.or b.field).isSome →
          c.one = none → b.one = none → b.build c = .error .One)
      ∧ (∀ q, b.build c = .ok q → q.inputs = c.inputs) := by
  rcases hcs : c.selector with _ | s₀ <;> rcases hbs : b.selector with _ | s₁ <;>
    rcases hcf : c.field with _ | f₀ <;> rcases hbf : b.field with _ | f₁ <;>
    rcases hco : c.one with _ | o₀ <;> rcases hbo : b.one with _ | o₁ <;>
    simp_all [QueryBuilder.build, Option.or]

/-! ## Web-resource query configuration (`WebResourceFactory::build_query`) -/

/-- Errors of web-resource job construction relevant to the query: a builder
error, or the kind-specific rejection of an unsupported option (the anyhow
message of `web_resource.rs`). -/
inductive ConfigureError where
  | builder (e : QueryBuilderError)
  | unsupported (msg : String)
deriving Repr, DecidableEq

/-- WebResourceFactory::build_query from `web_resource.rs`: the builder is
given the web-resource defaults (`field = Some("value")`, `one = false`,
`selector = "<web-resource>"`), the user config is merged over them, and a
resolved query with `one = true` is rejected. -/
def build_query (config : ConfigQuery) : Except ConfigureError Query :=
  match (Query.builder
      |>.default_field (some "value")
      |>.default_one false
      |>.default_selector "<web-resource>").build config with
  | .error e => .error (.builder e)
  | .ok q =>
    if q.one then .error (.unsupported "web-resource prequery does not support --one")
    else .ok q

/-- C8: the web-resource query defaults are selector `<web-resource>`, field
`value`, one `false`; a config whose resolved query has `one = true` (exactly
the configs that say `one = true` explicitly) is rejected at construction time
with the error naming the unsupported `--one` option; on success the resolved
values are the user's where given, the defaults otherwise, and the resolved
`one` is false. -/
theorem c8_web_resource_defaults (c : ConfigQuery) :
    (c.one = some true →
        build_query c = .error (.unsupported "web-resource prequery does not support --one"))
      ∧ (∀ q, build_query c = .ok q →
          q.selector = c.selector.getD "<web-resource>"
            ∧ q.field = c.field.getD (some "value")
            ∧ q.one = false
            ∧ q.inputs = c.inputs) := by
  rcases hcs : c.selector with _ | s₀ <;> rcases hcf : c.field with _ | f₀ <;>
    rcases hco : c.one with _ | o₀ <;>
    first
      | (cases o₀ <;>
          simp_all [build_query, QueryBuilder.build, Query.builder,
            QueryBuilder.default_field, QueryBuilder.default_one,
            QueryBuilder.default_selector, Option.or])
      | (simp_all [build_query, QueryBuilder.build, Query.builder,
          QueryBuilder.default_field, QueryBuilder.default_one,
          QueryBuilder.default_selector, Option.or])

/-! ## Resource sync engine (`WebResource` in `src/preprocessor/web_resource.rs`) -/

/-- Modelled from the spec: a web resource record (`Resource` in the
web-resource preprocessor's config module, which is not among the provided
sources): a remote URL plus a local destination path. -/
structure Resource where
  url : String
  path : String
deriving Repr, DecidableEq

/-- Modelled from the spec: the query result shape of the web-resource kind
(`QueryData`), a list of resources. -/
abbrev QueryData := List Resource

/-- The web-resource kind configuration (`Manifest` in
`preprocessors/web_resource/manifest.rs`): `overwrite` (default false),
`index` (optional path; `true` in the manifest stands for the default name),
and `evict` (default false). -/
structure Config where
  overwrite : Bool
  index : Option String
  evict : Bool
deriving Repr, DecidableEq

/-- Filesystem, notification and network operations performed while processing
one resource (the trace vocabulary). `deleteFile` is the operation eviction
would need; no code path emits it. -/
inductive FsOp where
  | existsCheck (path : String)
  | notifyDownload (url path : String)
  | notifySkip (url path : String)
  | createDirAll (path : String)
  | fetchUrl (url : String)
  | fileCreate (path : String)
  | fileWrite (path chunk : String)
  | deleteFile (path : String)
deriving Repr, DecidableEq

/-- Errors of one resource download or of the job, mirroring the anyhow error
chains of `web_resource.rs`. -/
inductive DlError where
  | pathOutsideRoot (path : String)
  | ioError (msg : String)
  | network (msg : String)
  | queryFailed (msg : String)
deriving Repr, DecidableEq

/-- The external collaborators of the web-resource preprocessor, as explicit
functions: `resolve` is `ARGS.resolve` (modelled from the spec: `none` exactly
when the path escapes the project root), `tryExists` is `fs::try_exists`,
`resolveIndexPath` is the io half of `Manifest::resolve_index_path` (resolving
the configured index name next to `typst.toml`), `parent` is `Path::parent`,
`createDirAll` is `fs::create_dir_all`, `fetch` is `reqwest::get` together
with the chunk stream, `fileCreate` is `fs::File::create`, and `runQuery` is
`Query::query` for this job's query. -/
structure Env where
  resolve : String → Option String
  tryExists : String → Except String Bool
  resolveIndexPath : String → Except String String
  parent : String → Option String
  createDirAll : String → Except String Unit
  fetch : String → Except String (List String)
  fileCreate : String → Except String Unit
  runQuery : Query → Except String QueryData

/-- Manifest::resolve_index_path from `preprocessors/web_resource/manifest.rs`:
`none` when no index is configured, otherwise the io result of resolving the
configured index path next to `typst.toml`. -/
def Config.resolve_index_path (self : Config) (env : Env) : Option (Except String String) :=
  self.index.map env.resolveIndexPath

/-- The per-resource decision of `WebResource::download` (the
`let download = if ... else if ... else if let ... else ...` chain): given
whether the local file exists, emit the notification line and decide between
download (`true`) and skip (`false`); with an index configured, a failing
index path resolution is an error (`let index = index?`). -/
def downloadDecision (config : Config) (env : Env) (url path : String) (ex : Bool) :
    List FsOp × Except DlError Bool :=
  if !ex then
    ([.notifyDownload url path], .ok true)
  else if config.overwrite then
    ([.notifyDownload url path], .ok true)
  else
    match config.resolve_index_path env with
    | some (.error e) => ([], .error (.ioError e))
    | some (.ok _) => ([.notifyDownload url path], .ok true)
    | none => ([.notifySkip url path], .ok false)

/-- The fetch-and-write half of the download block of `WebResource::download`:
`reqwest::get`, `fs::File::create`, then every chunk written. -/
def fetchWrite (env : Env) (url path : String) : List FsOp × Except DlError Unit :=
  match env.fetch url with
  | .error e => ([.fetchUrl url], .error (.network e))
  | .ok chunks =>
    match env.fileCreate path with
    | .error e => ([.fetchUrl url, .fileCreate path], .error (.ioError e))
    | .ok _ =>
      ([FsOp.fetchUrl url, FsOp.fileCreate path] ++ chunks.map (FsOp.fileWrite path),
        .ok ())

/-- The download block of `WebResource::download`: ensure the parent directory
exists (`fs::create_dir_all`), then fetch and write. -/
def performDownload (env : Env) (url path : String) : List FsOp × Except DlError Unit :=
  match env.parent path with
  | none => fetchWrite env url path
  | some par =>
    match env.createDirAll par with
    | .error e => ([.createDirAll par], .error (.ioError e))
    | .ok _ =>
      (FsOp.createDirAll par :: (fetchWrite env url path).1, (fetchWrite env url path).2)

/-- WebResource::download from `web_resource.rs`: resolve the path against the
project root (failing before any filesystem operation when it escapes the
root), check existence (`fs::try_exists(..).unwrap_or(false)`), decide, and
when the decision is download, perform the transfer. -/
def download (config : Config) (env : Env) (resource : Resource) :
    List FsOp × Except DlError Unit :=
  match env.resolve resource.path with
  | none => ([], .error (.pathOutsideRoot resource.path))
  | some path =>
    match downloadDecision config env resource.url path
        ((env.tryExists path).toOption.getD false) with
    | (ops, .error e) => (FsOp.existsCheck path :: ops, .error e)
    | (ops, .ok false) => (FsOp.existsCheck path :: ops, .ok ())
    | (ops, .ok true) =>
      ((FsOp.existsCheck path :: ops) ++ (performDownload env resource.url path).1,
        (performDownload env resource.url path).2)

/-- The `web-resource` preprocessor instance (`WebResource` in
`web_resource.rs`): a name, the kind configuration and the resolved query. -/
structure WebResource where
  name : String
  config : Config
  query : Query
deriving Repr, DecidableEq

/-- WebResource::run from `web_resource.rs`: execute the query (a query
failure propagates), spawn one download task per resource, join all the tasks
while discarding their results, and return success. -/
def WebResource.run (self : WebResource) (env : Env) : List FsOp × Except DlError Unit :=
  match env.runQuery self.query with
  | .error e => ([], .error (.queryFailed e))
  | .ok query_data =>
    ((query_data.map (fun r => (download self.config env r).1)).flatten, .ok ())

/-! ## Trace lemmas for the sync engine -/

lemma fetchWrite_no_delete (env : Env) (url path : String) (op : FsOp)
    (h : op ∈ (fetchWrite env url path).1) : ∀ p, op ≠ FsOp.deleteFile p := by
  intro p
  unfold fetchWrite at h
  split at h
  · simp at h; subst h; simp
  · split at h
    · simp at h
      rcases h with rfl | rfl <;> simp
    · simp at h
      rcases h with rfl | rfl | ⟨c, -, rfl⟩ <;> simp

lemma performDownload_no_delete (env : Env) (url path : String) (op : FsOp)
    (h : op ∈ (performDownload env url path).1) : ∀ p, op ≠ FsOp.deleteFile p := by
  intro p
  unfold performDownload at h
  split at h
  · exact fetchWrite_no_delete env url path op h p
  · split at h
    · simp at h; subst h; simp
    · simp at h
      rcases h with rfl | h
      · simp
      · exact fetchWrite_no_delete env url path op h p

lemma downloadDecision_no_delete (config : Config) (env : Env) (url path : String)
    (ex : Bool) (op : FsOp) (h : op ∈ (downloadDecision config env url path ex).1) :
    ∀ p, op ≠ FsOp.deleteFile p := by
  intro p
  unfold downloadDecision at h
  split at h
  · simp at h; subst h; simp
  · split at h
    · simp at h; subst h; simp
    · split at h <;> simp at h <;> subst h <;> simp

lemma download_no_delete (config : Config) (env : Env) (r : Resource) (op : FsOp)
    (h : op ∈ (download config env r).1) : ∀ p, op ≠ FsOp.deleteFile p := by
  intro p
  unfold download at h
  split at h
  · simp at h
  next path heq0 =>
    split at h
    next ops e heq =>
      simp at h
      rcases h with rfl | h
      · simp
      · exact downloadDecision_no_delete config env r.url path
          ((env.tryExists path).toOption.getD false) op (by rw [heq]; exact h) p
    next ops heq =>
      simp at h
      rcases h with rfl | h
      · simp
      · exact downloadDecision_no_delete config env r.url path
          ((env.tryExists path).toOption.getD false) op (by rw [heq]; exact h) p
    next ops heq =>
      simp at h
      rcases h with rfl | h | h
      · simp
      · exact downloadDecision_no_delete config env r.url path
          ((env.tryExists path).toOption.getD false) op (by rw [heq]; exact h) p
      · exact performDownload_no_delete env r.url path op h p

lemma performDownload_tryExists_irrelevant (env : Env) (f : String → Except String Bool)
    (url path : String) :
    performDownload { env with tryExists := f } url path = performDownload env url path := by
  simp [performDownload, fetchWrite]

lemma download_evict_irrelevant (config : Config) (b : Bool) (env : Env) (r : Resource) :
    download { config with evict := b } env r = download config env r := by
  simp [download, downloadDecision, Config.resolve_index_path]

/-! ## Claims C6, C7, C10, C9, C2 -/

/-- C6: for a resource whose path resolves inside the root, the per-resource
decision is exactly: download when the file does not exist; download when it
exists and overwrite is true; download when it exists, overwrite is false and
a configured index resolves; and skip — an informational notification only,
no download, no file modification, success — when it exists, overwrite is
false and no index is configured. -/
theorem c6_decision_matrix (config : Config) (env : Env) (r : Resource) (p : String)
    (hres : env.resolve r.path = some p) :
    ((env.tryExists p).toOption.getD false = false →
        download config env r
          = (FsOp.existsCheck p :: FsOp.notifyDownload r.url p ::
                (performDownload env r.url p).1,
              (performDownload env r.url p).2))
      ∧ ((env.tryExists p).toOption.getD false = true → config.overwrite = true →
          download config env r
            = (FsOp.existsCheck p :: FsOp.notifyDownload r.url p ::
                  (performDownload env r.url p).1,
                (performDownload env r.url p).2))
      ∧ (∀ idx resolved, (env.tryExists p).toOption.getD false = true →
          config.overwrite = false → config.index = some idx →
          env.resolveIndexPath idx = .ok resolved →
          download config env r
            = (FsOp.existsCheck p :: FsOp.notifyDownload r.url p ::
                  (performDownload env r.url p).1,
                (performDownload env r.url p).2))
      ∧ ((env.tryExists p).toOption.getD false = true → config.overwrite = false →
          config.index = none →
          download config env r = ([FsOp.existsCheck p, FsOp.notifySkip r.url p], .ok ())) := by
  refine ⟨?_, ?_, ?_, ?_⟩
  · intro hex
    simp [download, hres, downloadDecision, hex]
  · intro hex hov
    simp [download, hres, downloadDecision, hex, hov]
  · intro idx resolved hex hov hidx hok
    simp [download, hres, downloadDecision, hex, hov, Config.resolve_index_path, hidx, hok]
  · intro hex hov hidx
    simp [download, hres, downloadDecision, hex, hov, Config.resolve_index_path, hidx]

/-- C7: a resource whose declared path resolves outside the project root fails
with the path-containment error and an empty operation trace — no existence
check, directory creation or file write is performed for that resource. -/
theorem c7_path_outside_root (config : Config) (env : Env) (r : Resource)
    (h : env.resolve r.path = none) :
    download config env r = ([], .error (.pathOutsideRoot r.path)) := by
  simp [download, h]

/-- C10: if the existence check itself fails with an I/O error, the engine
behaves exactly as if the file were absent — the same outcome as under an
environment whose existence check answers false — and proceeds to download
(existence check then download notification) rather than reporting the
existence-check error. -/
theorem c10_exists_error_treated_absent (config : Config) (env : Env) (r : Resource)
    (p e : String) (h1 : env.resolve r.path = some p) (h2 : env.tryExists p = .error e) :
    download config env r = download config { env with tryExists := fun _ => .ok false } r
      ∧ (download config env r).1.take 2
        = [FsOp.existsCheck p, FsOp.notifyDownload r.url p] := by
  constructor
  · simp [download, h1, h2, downloadDecision, Except.toOption, Config.resolve_index_path,
      performDownload_tryExists_irrelevant]
  · simp [download, h1, h2, downloadDecision, Except.toOption]

/-- C9: with `evict = true` configured, running the job never deletes a local
file (no trace ever contains a delete operation), and the job's behavior is
identical to the same job with `evict = false`: the flag is parsed but has no
effect. -/
theorem c9_evict_no_effect (wr : WebResource) (env : Env)
    (h : wr.config.evict = true) :
    (∀ op ∈ (wr.run env).1, ∀ p, op ≠ FsOp.deleteFile p)
      ∧ wr.run env
        = WebResource.run { wr with config := { wr.config with evict := false } } env := by
  constructor
  · intro op hop
    unfold WebResource.run at hop
    rcases hq : env.runQuery wr.query with e | qd <;> rw [hq] at hop
    · simp at hop
    · simp only [List.mem_flatten, List.mem_map] at hop
      obtain ⟨l, ⟨r, -, rfl⟩, hop⟩ := hop
      exact download_no_delete wr.config env r op hop
  · unfold WebResource.run
    rcases hq : env.runQuery wr.query with e | qd <;>
      simp [hq, download_evict_irrelevant]

/-- C2 (amended): resource-level failures do not propagate out of
`WebResource::run`: whenever the query succeeds, `run` returns success
regardless of the individual download results, while every resource is still
attempted (the job's trace is exactly the concatenation of every resource's
download trace). -/
theorem c2_amended_errors_swallowed (wr : WebResource) (env : Env) (rs : QueryData)
    (h : env.runQuery wr.query = .ok rs) :
    (wr.run env).2 = .ok ()
      ∧ (wr.run env).1 = (rs.map (fun r => (download wr.config env r).1)).flatten := by
  constructor <;> simp [WebResource.run, h]

/-! ## Concrete environments for witnesses and counterexamples -/

/-- An environment whose path resolution always fails (every path is outside
the project root); all other collaborators are trivial. -/
def outsideEnv : Env where
  resolve := fun _ => none
  tryExists := fun _ => .ok false
  resolveIndexPath := fun _ => .ok "web-resource-index.toml"
  parent := fun _ => none
  createDirAll := fun _ => .ok ()
  fetch := fun _ => .ok []
  fileCreate := fun _ => .ok ()
  runQuery := fun _ => .ok [{ url := "https://x/a.png", path := "../a.png" }]

/-- An environment where every path resolves to itself and the local file
already exists. -/
def existingEnv : Env where
  resolve := fun p => some p
  tryExists := fun _ => .ok true
  resolveIndexPath := fun _ => .ok "web-resource-index.toml"
  parent := fun _ => none
  createDirAll := fun _ => .ok ()
  fetch := fun _ => .ok ["chunk"]
  fileCreate := fun _ => .ok ()
  runQuery := fun _ => .ok []

/-- An environment where every path resolves to itself and the existence
check fails with a permission error. -/
def deniedEnv : Env where
  resolve := fun p => some p
  tryExists := fun _ => .error "permission denied"
  resolveIndexPath := fun _ => .ok "web-resource-index.toml"
  parent := fun _ => none
  createDirAll := fun _ => .ok ()
  fetch := fun _ => .ok ["chunk"]
  fileCreate := fun _ => .ok ()
  runQuery := fun _ => .ok []

/-- C2 counterexample: under `outsideEnv` the job's only resource fails (its
path resolves outside the root), yet `run` returns success — refuting that a
failing resource makes the job's run fail. -/
theorem c2_counterexample :
    (download { overwrite := false, index := none, evict := false } outsideEnv
        { url := "https://x/a.png", path := "../a.png" }).2
      = .error (.pathOutsideRoot "../a.png")
    ∧ (WebResource.run
        { name := "job",
          config := { overwrite := false, index := none, evict := false },
          query := { selector := "<web-resource>", field := some "value",
                     one := false, inputs := [] } }
        outsideEnv).2 = .ok () :=
  ⟨rfl, rfl⟩

theorem c2_amended_errors_swallowed_witness :
    (WebResource.run
        { name := "job",
          config := { overwrite := false, index := none, evict := false },
          query := { selector := "<web-resource>", field := some "value",
                     one := false, inputs := [] } }
        outsideEnv).2 = .ok () :=
  (c2_amended_errors_swallowed _ outsideEnv
      [{ url := "https://x/a.png", path := "../a.png" }] rfl).1

theorem c6_decision_matrix_witness :
    download { overwrite := false, index := none, evict := false } existingEnv
        { url := "https://x/a.png", path := "a.png" }
      = ([FsOp.existsCheck "a.png", FsOp.notifySkip "https://x/a.png" "a.png"], .ok ()) :=
  (c6_decision_matrix { overwrite := false, index := none, evict := false } existingEnv
      { url := "https://x/a.png", path := "a.png" } "a.png" rfl).2.2.2 rfl rfl rfl

theorem c7_path_outside_root_witness :
    download { overwrite := false, index := none, evict := false } outsideEnv
        { url := "https://x/a.png", path := "../a.png" }
      = ([], .error (.pathOutsideRoot "../a.png")) :=
  c7_path_outside_root { overwrite := false, index := none, evict := false } outsideEnv
    { url := "https://x/a.png", path := "../a.png" } rfl

theorem c10_exists_error_treated_absent_witness :
    (download { overwrite := false, index := none, evict := false } deniedEnv
        { url := "https://x/b.png", path := "b.png" }).1.take 2
      = [FsOp.existsCheck "b.png", FsOp.notifyDownload "https://x/b.png" "b.png"] :=
  (c10_exists_error_treated_absent { overwrite := false, index := none, evict := false }
      deniedEnv { url := "https://x/b.png", path := "b.png" } "b.png" "permission denied"
      rfl rfl).2

theorem c9_evict_no_effect_witness :
    WebResource.run
        { name := "job",
          config := { overwrite := false, index := none, evict := true },
          query := { selector := "<web-resource>", field := some "value",
                     one := false, inputs := [] } }
        existingEnv
      = WebResource.run
          { name := "job",
            config := { overwrite := false, index := none, evict := false },
            query := { selector := "<web-resource>", field := some "value",
                       one := false, inputs := [] } }
          existingEnv :=
  (c9_evict_no_effect
      { name := "job",
        config := { overwrite := false, index := none, evict := true },
        query := { selector := "<web-resource>", field := some "value",
                   one := false, inputs := [] } }
      existingEnv rfl).2

/-! ## Claim C3: occurrences of the forced `--input prequery-fallback=true` pair -/

lemma countInputPairs_skip_left (a : String) (l : List String) (h : a ≠ "--input") :
    countInputPairs (a :: l) = countInputPairs l := by
  cases l with
  | nil => rfl
  | cons b t => simp [countInputPairs, h]

lemma countInputPairs_skip_pair (a b : String) (l : List String)
    (h : b ≠ "prequery-fallback=true") :
    countInputPairs (a :: b :: l) = countInputPairs (b :: l) := by
  simp [countInputPairs, h]

lemma countInputPairs_hit (l : List String) :
    countInputPairs ("--input" :: "prequery-fallback=true" :: l)
      = 1 + countInputPairs ("prequery-fallback=true" :: l) := by
  simp [countInputPairs]

lemma renderInputs_cons (kv : String × String) (rest : Inputs) :
    renderInputs (kv :: rest) = "--input" :: (kv.1 ++ "=" ++ kv.2) :: renderInputs rest := rfl

lemma append_cons_eq_of_not_mem {c : Char} : ∀ (l1 t1 l2 t2 : List Char),
    c ∉ l1 → c ∉ t1 → l1 ++ c :: l2 = t1 ++ c :: t2 → l1 = t1 ∧ l2 = t2 := by
  intro l1
  induction l1 with
  | nil =>
    intro t1 l2 t2 _ hnt h
    cases t1 with
    | nil => simpa using h
    | cons d t1 =>
      simp at h
      obtain ⟨rfl, -⟩ := h
      simp at hnt
  | cons a l1 ih =>
    intro t1 l2 t2 hnl hnt h
    cases t1 with
    | nil =>
      simp at h
      obtain ⟨rfl, -⟩ := h
      simp at hnl
    | cons d t1 =>
      simp at h
      obtain ⟨rfl, h2⟩ := h
      have hrec := ih t1 l2 t2 (fun hm => hnl (List.mem_cons_of_mem a hm))
        (fun hm => hnt (List.mem_cons_of_mem a hm)) h2
      exact ⟨by rw [hrec.1], hrec.2⟩

lemma appended_eq_forced_iff (k v : String) :
    k ++ "=" ++ v = "prequery-fallback=true" ↔ k = "prequery-fallback" ∧ v = "true" := by
  constructor
  · intro h
    have hd : k.data ++ '=' :: v.data
        = ("prequery-fallback" : String).data ++ '=' :: ("true" : String).data := by
      have h2 := congrArg String.data h
      have h3 : ("prequery-fallback=true" : String).data
          = ("prequery-fallback" : String).data ++ '=' :: ("true" : String).data := by decide
      simpa [String.data_append, h3] using h2
    have hc := congrArg (fun l => List.count '=' l) hd
    have hzp : List.count '=' (("prequery-fallback" : String).data) = 0 := by decide
    have hzt : List.count '=' (("true" : String).data) = 0 := by decide
    simp [List.count_append, hzp, hzt] at hc
    have hk : '=' ∉ k.data := by
      rw [← List.count_eq_zero]
      omega
    have hnp : '=' ∉ ("prequery-fallback" : String).data := by decide
    obtain ⟨hk1, hv1⟩ := append_cons_eq_of_not_mem k.data _ v.data _ hk hnp hd
    constructor
    · cases k with
      | mk kd => exact congrArg String.mk hk1
    · cases v with
      | mk vd => exact congrArg String.mk hv1
  · rintro ⟨rfl, rfl⟩
    decide

lemma countInputPairs_skip_before_inputs (a : String) (inputs : Inputs) (T : List String) :
    countInputPairs (a :: (renderInputs inputs ++ "--input" :: T))
      = countInputPairs (renderInputs inputs ++ "--input" :: T) := by
  cases inputs with
  | nil => exact countInputPairs_skip_pair a "--input" T (by decide)
  | cons kv rest =>
    exact countInputPairs_skip_pair a "--input"
      ((kv.1 ++ "=" ++ kv.2) :: (renderInputs rest ++ "--input" :: T)) (by decide)

lemma countInputPairs_core (i s : String) (hi : i ≠ "--input") (inputs : Inputs) :
    countInputPairs
        (renderInputs inputs ++ "--input" :: "prequery-fallback=true" :: i :: s :: [])
      = countPf inputs + 1 := by
  induction inputs with
  | nil =>
    rw [show renderInputs [] ++ "--input" :: "prequery-fallback=true" :: i :: s :: []
        = "--input" :: "prequery-fallback=true" :: i :: s :: [] from rfl]
    rw [countInputPairs_hit]
    rw [countInputPairs_skip_left "prequery-fallback=true" (i :: s :: []) (by decide)]
    rw [countInputPairs_skip_left i (s :: []) hi]
    rfl
  | cons kv rest ih =>
    obtain ⟨k, v⟩ := kv
    rw [renderInputs_cons, List.cons_append, List.cons_append]
    rw [show countInputPairs ("--input" :: (k ++ "=" ++ v) ::
          (renderInputs rest ++ "--input" :: "prequery-fallback=true" :: i :: s :: []))
        = (if "--input" = "--input" ∧ (k ++ "=" ++ v) = "prequery-fallback=true"
            then 1 else 0)
          + countInputPairs ((k ++ "=" ++ v) ::
              (renderInputs rest ++ "--input" :: "prequery-fallback=true" :: i :: s :: []))
        from rfl]
    rw [countInputPairs_skip_before_inputs (k ++ "=" ++ v) rest
      ("prequery-fallback=true" :: i :: s :: [])]
    rw [ih]
    have hiff : ("--input" = "--input" ∧ (k ++ "=" ++ v) = "prequery-fallback=true")
        ↔ (k = "prequery-fallback" ∧ v = "true") := by
      rw [appended_eq_forced_iff]
      simp
    rw [if_congr hiff rfl rfl]
    rw [show countPf ((k, v) :: rest)
        = (if k = "prequery-fallback" ∧ v = "true" then 1 else 0) + countPf rest from rfl]
    omega

lemma countInputPairs_skip_before_fo (a : String) (f : Option String) (o : Bool)
    (inputs : Inputs) (T : List String) :
    countInputPairs
        (a :: (fieldArgs f ++ (oneArgs o ++ (renderInputs inputs ++ "--input" :: T))))
      = countInputPairs
          (fieldArgs f ++ (oneArgs o ++ (renderInputs inputs ++ "--input" :: T))) := by
  cases f with
  | some fv =>
    exact countInputPairs_skip_pair a "--field"
      (fv :: (oneArgs o ++ (renderInputs inputs ++ "--input" :: T))) (by decide)
  | none =>
    cases o with
    | true =>
      exact countInputPairs_skip_pair a "--one"
        (renderInputs inputs ++ "--input" :: T) (by decide)
    | false => exact countInputPairs_skip_before_inputs a inputs T

lemma countInputPairs_fo (f : Option String) (o : Bool) (inputs : Inputs) (T : List String) :
    countInputPairs (fieldArgs f ++ (oneArgs o ++ (renderInputs inputs ++ "--input" :: T)))
      = countInputPairs (renderInputs inputs ++ "--input" :: T) := by
  cases f with
  | none =>
    cases o with
    | false => rfl
    | true => exact countInputPairs_skip_before_inputs "--one" inputs T
  | some fv =>
    cases o with
    | false =>
      calc countInputPairs ("--field" :: fv :: (renderInputs inputs ++ "--input" :: T))
          = countInputPairs (fv :: (renderInputs inputs ++ "--input" :: T)) :=
            countInputPairs_skip_left "--field" _ (by decide)
        _ = countInputPairs (renderInputs inputs ++ "--input" :: T) :=
            countInputPairs_skip_before_inputs fv inputs T
    | true =>
      calc countInputPairs
            ("--field" :: fv :: "--one" :: (renderInputs inputs ++ "--input" :: T))
          = countInputPairs (fv :: "--one" :: (renderInputs inputs ++ "--input" :: T)) :=
            countInputPairs_skip_left "--field" _ (by decide)
        _ = countInputPairs ("--one" :: (renderInputs inputs ++ "--input" :: T)) :=
            countInputPairs_skip_pair fv "--one" _ (by decide)
        _ = countInputPairs (renderInputs inputs ++ "--input" :: T) :=
            countInputPairs_skip_before_inputs "--one" inputs T

/-- C3 (amended): the command line always contains the forced
`--input prequery-fallback=true` pair exactly once more than the number of
user-supplied input entries whose key is literally `prequery-fallback` with
value `true` — so exactly once unless the user supplies that very entry, in
which case twice (the user entry is emitted from the inputs map and the
forced pair is appended after it). The input file name is assumed not to be
the literal string `--input`. -/
theorem c3_amended_forced_input (args : Args) (q : Query) (hi : args.input ≠ "--input") :
    countInputPairs (Query.command args q).2 = 1 + countPf q.inputs := by
  have hcore := countInputPairs_core args.input q.selector hi q.inputs
  cases hr : args.root with
  | none =>
    have hshape : (Query.command args q).2
        = "query" :: (fieldArgs q.field ++ (oneArgs q.one ++ (renderInputs q.inputs
            ++ "--input" :: "prequery-fallback=true" :: args.input :: q.selector :: []))) := by
      simp [Query.command, rootArgs, hr, List.append_assoc]
    rw [hshape]
    rw [countInputPairs_skip_left "query" _ (by decide)]
    rw [countInputPairs_fo q.field q.one q.inputs
      ("prequery-fallback=true" :: args.input :: q.selector :: [])]
    rw [hcore]
    omega
  | some rt =>
    have hshape : (Query.command args q).2
        = "query" :: "--root" :: rt :: (fieldArgs q.field ++ (oneArgs q.one
            ++ (renderInputs q.inputs
              ++ "--input" :: "prequery-fallback=true" :: args.input :: q.selector :: []))) := by
      simp [Query.command, rootArgs, hr, List.append_assoc]
    rw [hshape]
    rw [countInputPairs_skip_pair "query" "--root" _ (by decide)]
    rw [countInputPairs_skip_left "--root" _ (by decide)]
    rw [countInputPairs_skip_before_fo rt q.field q.one q.inputs
      ("prequery-fallback=true" :: args.input :: q.selector :: [])]
    rw [countInputPairs_fo q.field q.one q.inputs
      ("prequery-fallback=true" :: args.input :: q.selector :: [])]
    rw [hcore]
    omega

/-- C3 counterexample: with a user input literally named `prequery-fallback`
set to `true`, the constructed command line contains the argument pair
`--input prequery-fallback=true` twice, not exactly once. -/
theorem c3_counterexample :
    countInputPairs
        (Query.command { typst := "typst", root := none, input := "main.typ" }
          { selector := "<web-resource>", field := none, one := false,
            inputs := [("prequery-fallback", "true")] }).2 = 2 := by
  decide

theorem c3_amended_forced_input_witness :
    countInputPairs
        (Query.command { typst := "typst", root := none, input := "main.typ" }
          { selector := "<sel>", field := some "value", one := false,
            inputs := [("k", "v")] }).2 = 1 + countPf [("k", "v")] :=
  c3_amended_forced_input { typst := "typst", root := none, input := "main.typ" }
    { selector := "<sel>", field := some "value", one := false, inputs := [("k", "v")] }
    (by decide)

end TypstPreprocess
